import Mathlib

/-!
Shallow embedding of the proximity-gated reaction subsystem and the
aggregation layer of the flood-control-ph repository, with proofs settling
the claims C1 to C10.

Embedded sources:
  src/shared/schema.ts (table shapes),
  src/server/routes.ts (reaction submission, proximity verification and
  project deletion routes),
  src/client/src/hooks/use-projects-by-reactions.ts (MemStorage: the
  getProjects search filter, the getAnalytics contractor grouping and
  deleteProject),
  src/client/src/hooks/use-projects.ts (the by-reactions contractor
  rollup with the controversy score).

Numbers: the JavaScript source computes with IEEE doubles. The embedding
uses rationals for every arithmetic step the claims depend on, models the
NaN that parseFloat yields on a non-numeric string as Option.none (NaN
propagates through arithmetic and makes every comparison false, exactly
how none is treated below), keeps the trigonometric Haversine kernel of
the submission handler abstract as a function parameter that the handler
merely threads through, and gives a separate Real-valued translation of
that kernel for the distance claim C8.
-/

attribute [local semireducible] Rat.mul Rat.add Rat.sub Rat.inv Rat.ofScientific

/-- Digit scanner used by jsParseFloat: consumes leading decimal digits and
returns the accumulated value, the number of digits consumed and the
remaining characters. -/
def goDigits (acc : Nat) : List Char → Nat × Nat × List Char
  | [] => (acc, 0, [])
  | c :: t =>
    if c.isDigit then
      let r := goDigits (acc * 10 + (c.toNat - 48)) t
      (r.1, r.2.1 + 1, r.2.2)
    else (acc, 0, c :: t)

/-- Model of the JavaScript parseFloat builtin as applied to stored decimal
columns: an optional sign followed by decimal digits with an optional
fractional part parses to the denoted rational; a string with no leading
digit in either part yields NaN, modelled as none. Exponents, leading
whitespace and Infinity do not occur in the decimal columns this program
stores and are not modelled. -/
def jsParseFloat (s : String) : Option ℚ :=
  let p := match s.data with
    | '-' :: t => (true, t)
    | '+' :: t => (false, t)
    | cs => (false, cs)
  let ipart := goDigits 0 p.2
  let fpart := match ipart.2.2 with
    | '.' :: t => goDigits 0 t
    | _ => (0, 0, ([] : List Char))
  if ipart.2.1 = 0 ∧ fpart.2.1 = 0 then none
  else
    let mag : ℚ := (ipart.1 : ℚ) + (fpart.1 : ℚ) / ((10 : ℚ) ^ fpart.2.1)
    some (if p.1 then -mag else mag)

/-- Substring test on character lists: true when the first list occurs
contiguously inside the second. -/
def containsSub (needle : List Char) : List Char → Bool
  | [] => needle.isPrefixOf []
  | c :: t => needle.isPrefixOf (c :: t) || containsSub needle t

/-- ASCII lowercasing of one character, as toLowerCase acts on the ASCII
field values this program stores. -/
def charLower (c : Char) : Char :=
  if c.isUpper then Char.ofNat (c.toNat + 32) else c

/-- Model of hay.toLowerCase().includes(needle.toLowerCase()) as used by the
search filters, where the JavaScript code lowercases the search string once
and each field at comparison time. -/
def jsIncludesCI (hay needle : String) : Bool :=
  containsSub (needle.data.map charLower) (hay.data.map charLower)

/-- Splitter for the slash character, the List.Char counterpart of the
JavaScript split on the slash: an empty string yields one empty fragment,
adjacent slashes yield empty fragments. -/
def splitSlash (cur : List Char) : List Char → List (List Char)
  | [] => [cur.reverse]
  | c :: t => if c = '/' then cur.reverse :: splitSlash [] t else splitSlash (c :: cur) t

/-- Whitespace test covering the characters that occur in the stored
contractor strings, matching what the JavaScript trim removes there. -/
def isJsSpace (c : Char) : Bool :=
  c == ' ' || c == '\t' || c == '\n' || c == '\r'

/-- Trim of leading and trailing whitespace on a character list. -/
def trimChars (l : List Char) : List Char :=
  ((l.dropWhile isJsSpace).reverse.dropWhile isJsSpace).reverse

/-- Contractor fragment list of a project: the contractor string split on
the slash with every fragment trimmed, as computed at
use-projects-by-reactions.ts line 438. -/
def splitContractors (s : String) : List String :=
  (splitSlash [] s.data).map (fun cs => String.mk (trimChars cs))

/-- Model of Math.round on a finite double: half-integers round toward
positive infinity. -/
def jsRound (q : ℚ) : ℤ := ⌊q + 1 / 2⌋

/-- Row of the projects table (src/shared/schema.ts lines 6 to 22). The
coordinate and cost columns are decimal columns the server reads back as
strings and feeds to parseFloat, so they stay strings here; timestamps are
epoch naturals. -/
structure ProjectRow where
  id : String
  projectname : String
  location : String
  latitude : String
  longitude : String
  contractor : String
  cost : String
  start_date : Option String
  completion_date : Option String
  fy : String
  region : String
  other_details : Option String
  status : Option String
  created_at : Nat
deriving DecidableEq

/-- Row of the users table (src/shared/schema.ts lines 69 to 81), keeping
the columns the embedded handlers read. -/
structure UserRow where
  id : String
  email : String
  isLocationVerified : Bool
deriving DecidableEq

/-- Row of the user_locations table (src/shared/schema.ts lines 84 to 92).
The decimal coordinate columns only ever hold stringified numbers written
by the two location routes, and parseFloat of such a string returns the
number, so they are modelled as the numbers themselves. -/
structure UserLocationRow where
  id : String
  userId : String
  latitude : ℚ
  longitude : ℚ
  address : Option String
  created_at : Nat
deriving DecidableEq

/-- Row of the reactions table (src/shared/schema.ts lines 95 to 106). -/
structure ReactionRow where
  id : String
  userId : String
  projectId : String
  rating : String
  comment : Option String
  isProximityVerified : Bool
  created_at : Nat
  updated_at : Nat
deriving DecidableEq

/-- Database state seen by the reaction routes: the four tables plus a
fresh-id counter modelling gen_random_uuid and a clock modelling new
Date(). -/
structure DBState where
  users : List UserRow
  userLocations : List UserLocationRow
  reactions : List ReactionRow
  projects : List ProjectRow
  nextId : Nat
  now : Nat
deriving DecidableEq

/-- Body of a POST /api/projects/:projectId/reactions request
(src/server/routes.ts line 415). -/
structure SubmitRequest where
  rating : String
  comment : Option String
  userLocation : Option (ℚ × ℚ)
deriving DecidableEq

/-- Proximity details payload built at src/server/routes.ts lines 493 to
498. distanceM is the distance in meters, none standing for the NaN that
arises when a stored project coordinate fails to parse. -/
structure ProxDetails where
  distanceM : Option ℚ
  required : ℚ
  projectLat : Option ℚ
  projectLng : Option ℚ
  userLat : ℚ
  userLng : ℚ
deriving DecidableEq

/-- Outcome of the reaction submission handler: the structured proximity
rejection of src/server/routes.ts lines 557 to 566 (carrying the rounded
meter distance, none for NaN, and the required radius) or the acceptance
payload of lines 569 to 575. -/
inductive SubmitResult where
  | rejected (distanceRounded : Option ℤ) (required : ℚ)
  | ok (reaction : ReactionRow) (proximityVerified : Bool)
      (locationCaptured : Bool) (details : Option ProxDetails)
      (isAdminBypass : Bool)
deriving DecidableEq

/-- Literal admin email the handler compares against
(src/server/routes.ts line 458). -/
def adminEmail : String := "janmvtrinidad@gmail.com"

/-- JavaScript truthiness of userLocation?.latitude && userLocation?.longitude
(src/server/routes.ts lines 418 and 464): present and both coordinates
nonzero. -/
def locTruthy (req : SubmitRequest) : Bool :=
  match req.userLocation with
  | some c => c.1 != 0 && c.2 != 0
  | none => false

/-- Marks one user row as location verified, as the update at
src/server/routes.ts lines 437 to 443 does. -/
def markVerified (uid : String) (u : UserRow) : UserRow :=
  if u.id == uid then { u with isLocationVerified := true } else u

/-- Upsert keyed on userId that the drizzle onConflictDoUpdate call at
src/server/routes.ts lines 420 to 434 expresses: update the coordinates of
the existing rows for the user if any, otherwise insert a fresh row with
address Current Location. (The schema lacks a unique index on user_id; the
statement is modelled by its written intent.) -/
def upsertUserLocation (t : List UserLocationRow) (uid : String) (la ln : ℚ)
    (newId : String) (now : Nat) : List UserLocationRow :=
  if t.any (fun r => r.userId == uid) then
    t.map (fun r =>
      if r.userId == uid then { r with latitude := la, longitude := ln } else r)
  else
    t ++ [⟨newId, uid, la, ln, some "Current Location", now⟩]

/-- First stage of the submission handler (src/server/routes.ts lines 417
to 447): when a truthy location is submitted, write it to user_locations
and flag the user as location verified; otherwise leave the state alone. -/
def locationStep (st : DBState) (uid : String) (req : SubmitRequest) : DBState :=
  match req.userLocation with
  | some c =>
    if c.1 != 0 && c.2 != 0 then
      { st with
        userLocations :=
          upsertUserLocation st.userLocations uid c.1 c.2 (toString st.nextId) st.now,
        users := st.users.map (markVerified uid),
        nextId := st.nextId + 1 }
    else st
  | none => st

/-- Email bypass check of src/server/routes.ts lines 450 to 458: the first
users row with the given id, compared against the literal admin email. -/
def isAdminOf (st : DBState) (uid : String) : Bool :=
  match st.users.find? (fun u => u.id == uid) with
  | some u => u.email == adminEmail
  | none => false

/-- Proximity evaluation of src/server/routes.ts lines 460 to 509,
parameterized by the Haversine kernel dist (the float computation of lines
479 to 491, whose Real translation is haversineKm below): returns the
isProximityVerified flag and the optional proximityDetails. A stored
coordinate that fails parseFloat makes the distance NaN (none), which
fails the 0.5 km comparison, while proximityDetails is still built. -/
def verdictCore (dist : ℚ → ℚ → ℚ → ℚ → ℚ) (admin : Bool)
    (projectsT : List ProjectRow) (pid : String) (req : SubmitRequest) :
    Bool × Option ProxDetails :=
  match req.userLocation with
  | some c =>
    if c.1 != 0 && c.2 != 0 then
      match projectsT.find? (fun p => p.id == pid) with
      | some p =>
        let plat := jsParseFloat p.latitude
        let plng := jsParseFloat p.longitude
        let dKm : Option ℚ :=
          match plat, plng with
          | some a, some b => some (dist a b c.1 c.2)
          | _, _ => none
        let verified : Bool :=
          admin ||
            (match dKm with
             | some d => decide (d ≤ 1 / 2)
             | none => false)
        (verified, some ⟨dKm.map (fun d => d * 1000), 500, plat, plng, c.1, c.2⟩)
      | none => (false, none)
    else (admin, none)
  | none => (admin, none)

/-- Reaction upsert of src/server/routes.ts lines 511 to 548: look up the
first existing reaction of the (user, project) pair; update it in place if
present (the update targets the row id and changes rating, comment, flag
and updated_at only), otherwise insert a fresh row. Returns the row the
database returning() clause hands back together with the new state. -/
def upsertReaction (st : DBState) (uid pid : String) (req : SubmitRequest)
    (verified : Bool) : ReactionRow × DBState :=
  match st.reactions.find? (fun r => r.userId == uid && r.projectId == pid) with
  | some ex =>
    let newEx := { ex with rating := req.rating, comment := req.comment,
                           isProximityVerified := verified, updated_at := st.now }
    (newEx,
     { st with reactions := st.reactions.map (fun r =>
         if r.id == ex.id then
           { r with rating := req.rating, comment := req.comment,
                    isProximityVerified := verified, updated_at := st.now }
         else r) })
  | none =>
    let newRow : ReactionRow :=
      ⟨toString st.nextId, uid, pid, req.rating, req.comment, verified, st.now, st.now⟩
    (newRow,
     { st with reactions := st.reactions ++ [newRow], nextId := st.nextId + 1 })

/-- Full POST /api/projects/:projectId/reactions handler
(src/server/routes.ts lines 409 to 586): location side effect, admin
check, proximity evaluation, reaction upsert, and only then the proximity
rejection check of lines 550 to 567, so the upsert has already been
applied when the rejection is returned. -/
def submitReaction (dist : ℚ → ℚ → ℚ → ℚ → ℚ) (st : DBState)
    (uid pid : String) (req : SubmitRequest) : SubmitResult × DBState :=
  let st1 := locationStep st uid req
  let admin := isAdminOf st1 uid
  let v := verdictCore dist admin st1.projects pid req
  let up := upsertReaction st1 uid pid req v.1
  if req.userLocation.isSome && v.2.isSome && !v.1 && !admin then
    (SubmitResult.rejected ((v.2.bind (fun d => d.distanceM)).map jsRound) 500, up.2)
  else
    (SubmitResult.ok up.1 v.1 req.userLocation.isSome v.2 (admin && v.2.isNone), up.2)

/-- Verification flag the handler computes for a request against a state,
read off the same pipeline. -/
def verdictOf (dist : ℚ → ℚ → ℚ → ℚ → ℚ) (st : DBState) (uid pid : String)
    (req : SubmitRequest) : Bool :=
  (verdictCore dist (isAdminOf (locationStep st uid req) uid)
    (locationStep st uid req).projects pid req).1

/-- Reaction rows of one (user, project) pair. -/
def reactionRowsFor (st : DBState) (uid pid : String) : List ReactionRow :=
  st.reactions.filter (fun r => r.userId == uid && r.projectId == pid)

/-- Reaction Ledger invariant: at most one reaction row per (user, project)
pair. -/
def atMostOnePerPair (st : DBState) : Prop :=
  ∀ uid pid : String, (reactionRowsFor st uid pid).length ≤ 1

lemma markVerified_id (uid : String) (u : UserRow) : (markVerified uid u).id = u.id := by
  unfold markVerified; split <;> rfl

lemma markVerified_email (uid : String) (u : UserRow) :
    (markVerified uid u).email = u.email := by
  unfold markVerified; split <;> rfl

lemma adminCheck_map_markVerified (uid v : String) (l : List UserRow) :
    (match (l.map (markVerified uid)).find? (fun u => u.id == v) with
     | some u => u.email == adminEmail
     | none => false)
    = (match l.find? (fun u => u.id == v) with
       | some u => u.email == adminEmail
       | none => false) := by
  induction l with
  | nil => rfl
  | cons a t ih =>
    simp only [List.map_cons, List.find?]
    rw [markVerified_id]
    cases hpa : (a.id == v) with
    | true => simp [markVerified_email]
    | false => exact ih

lemma locationStep_projects (st : DBState) (uid : String) (req : SubmitRequest) :
    (locationStep st uid req).projects = st.projects := by
  unfold locationStep
  split <;> first | rfl | (split <;> rfl)

lemma locationStep_reactions (st : DBState) (uid : String) (req : SubmitRequest) :
    (locationStep st uid req).reactions = st.reactions := by
  unfold locationStep
  split <;> first | rfl | (split <;> rfl)

lemma isAdminOf_locationStep (st : DBState) (uid : String) (req : SubmitRequest)
    (v : String) : isAdminOf (locationStep st uid req) v = isAdminOf st v := by
  unfold locationStep
  split
  · split
    · unfold isAdminOf
      exact adminCheck_map_markVerified uid v st.users
    · rfl
  · rfl

lemma filter_map_comm {α : Type} (f : α → α) (p : α → Bool)
    (hf : ∀ a, p (f a) = p a) (l : List α) :
    (l.map f).filter p = (l.filter p).map f := by
  induction l with
  | nil => rfl
  | cons a t ih =>
    simp only [List.map_cons, List.filter_cons, hf]
    cases h : p a <;> simp [h, ih]

lemma filter_eq_singleton_of_find? {α : Type} (p : α → Bool) (l : List α) (a : α)
    (hf : l.find? p = some a) (hlen : (l.filter p).length ≤ 1) :
    l.filter p = [a] := by
  induction l with
  | nil => simp at hf
  | cons b t ih =>
    simp only [List.find?] at hf
    simp only [List.filter_cons] at hlen ⊢
    cases h : p b with
    | true =>
      rw [h] at hf
      injection hf with hba
      subst hba
      simp only [h, if_true] at hlen ⊢
      have h0 : (t.filter p).length = 0 := by
        simp only [List.length_cons] at hlen
        omega
      rw [List.length_eq_zero] at h0
      rw [h0]
    | false =>
      rw [h] at hf
      simp only [h, if_false] at hlen ⊢
      exact ih hf hlen

lemma filter_nil_of_find?_none {α : Type} (p : α → Bool) (l : List α)
    (hf : l.find? p = none) : l.filter p = [] := by
  induction l with
  | nil => rfl
  | cons b t ih =>
    simp only [List.find?] at hf
    cases h : p b with
    | true => simp [h] at hf
    | false =>
      simp only [h] at hf
      simp only [List.filter_cons, h]
      simpa using ih hf

lemma upsertReaction_projects (st : DBState) (uid pid : String)
    (req : SubmitRequest) (v : Bool) :
    ((upsertReaction st uid pid req v).2).projects = st.projects := by
  unfold upsertReaction; split <;> rfl

lemma upsertReaction_users (st : DBState) (uid pid : String)
    (req : SubmitRequest) (v : Bool) :
    ((upsertReaction st uid pid req v).2).users = st.users := by
  unfold upsertReaction; split <;> rfl

lemma upsertReaction_fst (st : DBState) (uid pid : String)
    (req : SubmitRequest) (v : Bool) :
    ((upsertReaction st uid pid req v).1).rating = req.rating
    ∧ ((upsertReaction st uid pid req v).1).comment = req.comment
    ∧ ((upsertReaction st uid pid req v).1).isProximityVerified = v := by
  unfold upsertReaction; split <;> exact ⟨rfl, rfl, rfl⟩

lemma upsertReaction_rows_self (st : DBState) (uid pid : String)
    (req : SubmitRequest) (v : Bool) (hInv : atMostOnePerPair st) :
    reactionRowsFor ((upsertReaction st uid pid req v).2) uid pid
      = [(upsertReaction st uid pid req v).1] := by
  have hlen := hInv uid pid
  unfold reactionRowsFor at hlen ⊢
  unfold upsertReaction
  cases hf : st.reactions.find? (fun r => r.userId == uid && r.projectId == pid) with
  | some ex =>
    simp only [hf]
    rw [filter_map_comm]
    · rw [filter_eq_singleton_of_find? _ _ _ hf hlen]
      simp
    · intro a
      by_cases h : (a.id == ex.id) = true <;> simp [h]
  | none =>
    simp only [hf]
    rw [List.filter_append, filter_nil_of_find?_none _ _ hf]
    simp

lemma upsertReaction_inv (st : DBState) (uid pid : String)
    (req : SubmitRequest) (v : Bool) (hInv : atMostOnePerPair st) :
    atMostOnePerPair ((upsertReaction st uid pid req v).2) := by
  intro u2 p2
  have hlen := hInv u2 p2
  unfold reactionRowsFor at hlen ⊢
  unfold upsertReaction
  cases hf : st.reactions.find? (fun r => r.userId == uid && r.projectId == pid) with
  | some ex =>
    simp only [hf]
    rw [filter_map_comm]
    · simpa using hlen
    · intro a
      by_cases h : (a.id == ex.id) = true <;> simp [h]
  | none =>
    simp only [hf]
    rw [List.filter_append, List.length_append]
    by_cases h : (uid == u2 && pid == p2) = true
    · have h1 : uid = u2 ∧ pid = p2 := by simpa using h
      obtain ⟨h2, h3⟩ := h1
      subst h2; subst h3
      rw [filter_nil_of_find?_none _ _ hf]
      simp
    · rw [Bool.not_eq_true] at h
      have hz : (List.filter (fun r => r.userId == u2 && r.projectId == p2)
          [(⟨toString st.nextId, uid, pid, req.rating, req.comment, v,
            st.now, st.now⟩ : ReactionRow)]) = [] := by
        simp only [List.filter_cons, List.filter_nil]
        simpa using h
      rw [hz]
      simpa using hlen

lemma submitReaction_state (dist : ℚ → ℚ → ℚ → ℚ → ℚ) (st : DBState)
    (uid pid : String) (req : SubmitRequest) :
    (submitReaction dist st uid pid req).2
      = (upsertReaction (locationStep st uid req) uid pid req
          (verdictOf dist st uid pid req)).2 := by
  unfold submitReaction verdictOf
  dsimp only
  split <;> rfl

lemma submitReaction_projects (dist : ℚ → ℚ → ℚ → ℚ → ℚ) (st : DBState)
    (uid pid : String) (req : SubmitRequest) :
    ((submitReaction dist st uid pid req).2).projects = st.projects := by
  rw [submitReaction_state, upsertReaction_projects, locationStep_projects]

lemma isAdminOf_submitReaction (dist : ℚ → ℚ → ℚ → ℚ → ℚ) (st : DBState)
    (uid pid : String) (req : SubmitRequest) (v2 : String) :
    isAdminOf ((submitReaction dist st uid pid req).2) v2 = isAdminOf st v2 := by
  rw [submitReaction_state]
  have hu := upsertReaction_users (locationStep st uid req) uid pid req
    (verdictOf dist st uid pid req)
  have h2 := isAdminOf_locationStep st uid req v2
  unfold isAdminOf at h2 ⊢
  rw [hu]
  exact h2

lemma verdictOf_eq_core (dist : ℚ → ℚ → ℚ → ℚ → ℚ) (st : DBState)
    (uid pid : String) (req : SubmitRequest) :
    verdictOf dist st uid pid req
      = (verdictCore dist (isAdminOf st uid) st.projects pid req).1 := by
  unfold verdictOf
  rw [isAdminOf_locationStep, locationStep_projects]

lemma verdictOf_submitReaction (dist : ℚ → ℚ → ℚ → ℚ → ℚ) (st : DBState)
    (uid pid : String) (req q : SubmitRequest) :
    verdictOf dist ((submitReaction dist st uid pid req).2) uid pid q
      = verdictOf dist st uid pid q := by
  rw [verdictOf_eq_core, verdictOf_eq_core, isAdminOf_submitReaction,
    submitReaction_projects]

lemma atMostOne_locationStep (st : DBState) (uid : String) (req : SubmitRequest)
    (h : atMostOnePerPair st) : atMostOnePerPair (locationStep st uid req) := by
  intro u p
  unfold reactionRowsFor
  rw [locationStep_reactions]
  exact h u p

lemma submit_inv (dist : ℚ → ℚ → ℚ → ℚ → ℚ) (st : DBState) (uid pid : String)
    (req : SubmitRequest) (hInv : atMostOnePerPair st) :
    atMostOnePerPair ((submitReaction dist st uid pid req).2) := by
  rw [submitReaction_state]
  exact upsertReaction_inv _ _ _ _ _ (atMostOne_locationStep st uid req hInv)

lemma submit_rows (dist : ℚ → ℚ → ℚ → ℚ → ℚ) (st : DBState) (uid pid : String)
    (req : SubmitRequest) (hInv : atMostOnePerPair st) :
    ∃ row, reactionRowsFor ((submitReaction dist st uid pid req).2) uid pid = [row]
      ∧ row.rating = req.rating ∧ row.comment = req.comment
      ∧ row.isProximityVerified = verdictOf dist st uid pid req := by
  refine ⟨(upsertReaction (locationStep st uid req) uid pid req
    (verdictOf dist st uid pid req)).1, ?_, ?_, ?_, ?_⟩
  · rw [submitReaction_state]
    exact upsertReaction_rows_self _ _ _ _ _ (atMostOne_locationStep st uid req hInv)
  · exact (upsertReaction_fst _ _ _ _ _).1
  · exact (upsertReaction_fst _ _ _ _ _).2.1
  · exact (upsertReaction_fst _ _ _ _ _).2.2

/-- Sequential replay of reaction submissions by one user against one
project, threading the database state. -/
def submitFold (dist : ℚ → ℚ → ℚ → ℚ → ℚ) (st : DBState) (uid pid : String)
    (reqs : List SubmitRequest) : DBState :=
  reqs.foldl (fun s r => (submitReaction dist s uid pid r).2) st

/-- True when the handler accepted the submission (the non-error response
of src/server/routes.ts lines 569 to 575). -/
def isOkResult : SubmitResult → Bool
  | SubmitResult.ok _ _ _ _ _ => true
  | SubmitResult.rejected _ _ => false

/-- True when every submission in the list is accepted when replayed in
sequence from the given state. -/
def allAcceptedB (dist : ℚ → ℚ → ℚ → ℚ → ℚ) (uid pid : String) :
    DBState → List SubmitRequest → Bool
  | _, [] => true
  | st, r :: rs =>
    isOkResult (submitReaction dist st uid pid r).1
      && allAcceptedB dist uid pid (submitReaction dist st uid pid r).2 rs

/-- C2: for every user and project there is at all times at most one
Reaction row for the pair, and after N sequential accepted submissions by
the same user for the same project exactly one Reaction row exists for the
pair, carrying the rating, comment and proximity-verified outcome of the
Nth (most recent) submission only. -/
theorem reaction_ledger_upsert_unique (dist : ℚ → ℚ → ℚ → ℚ → ℚ)
    (st : DBState) (uid pid : String) (reqs : List SubmitRequest)
    (hInv : atMostOnePerPair st) (hne : reqs ≠ [])
    (hacc : allAcceptedB dist uid pid st reqs = true) :
    atMostOnePerPair (submitFold dist st uid pid reqs)
    ∧ ∃ row, reactionRowsFor (submitFold dist st uid pid reqs) uid pid = [row]
        ∧ row.rating = (reqs.getLast hne).rating
        ∧ row.comment = (reqs.getLast hne).comment
        ∧ row.isProximityVerified = verdictOf dist st uid pid (reqs.getLast hne) := by
  induction reqs generalizing st with
  | nil => exact absurd rfl hne
  | cons r rs ih =>
    cases rs with
    | nil =>
      have h1 := submit_rows dist st uid pid r hInv
      have h2 := submit_inv dist st uid pid r hInv
      constructor
      · exact h2
      · simpa [submitFold, List.getLast] using h1
    | cons r2 rs2 =>
      have hInv2 := submit_inv dist st uid pid r hInv
      have hacc2 : allAcceptedB dist uid pid
          (submitReaction dist st uid pid r).2 (r2 :: rs2) = true := by
        unfold allAcceptedB at hacc
        exact (Bool.and_eq_true_iff.mp hacc).2
      have hne2 : (r2 :: rs2) ≠ [] := by simp
      have hfold : submitFold dist st uid pid (r :: r2 :: rs2)
          = submitFold dist (submitReaction dist st uid pid r).2 uid pid (r2 :: rs2) := rfl
      have hlast : (r :: r2 :: rs2).getLast hne = (r2 :: rs2).getLast hne2 := by
        exact List.getLast_cons hne2
      obtain ⟨hA, row, hrow, hrat, hcom, hver⟩ := ih (submitReaction dist st uid pid r).2 hInv2 hne2 hacc2
      refine ⟨by rw [hfold]; exact hA, row, ?_, ?_, ?_, ?_⟩
      · rw [hfold]; exact hrow
      · rw [hlast]; exact hrat
      · rw [hlast]; exact hcom
      · rw [hlast]
        rw [verdictOf_submitReaction] at hver
        exact hver

/-- Concrete non-admin user for the worked instances. -/
def demoUser : UserRow := ⟨"u1", "user@example.com", false⟩

/-- Concrete project at the Manila coordinates used by the spec examples. -/
def demoProject : ProjectRow :=
  ⟨"p1", "Flood Control Gate", "Manila", "14.5995", "120.9842", "A Corp",
   "100", none, none, "2024", "NCR", none, some "active", 0⟩

/-- Concrete starting state: one non-admin user, one project, empty
reaction ledger. -/
def demoState : DBState := ⟨[demoUser], [], [], [demoProject], 0, 0⟩

/-- Concrete stand-in for the Haversine kernel, returning 13.6 km (the
float Haversine output for the Manila project and a user at latitude 14.7,
longitude 121.05, which is well beyond the 0.5 km radius). -/
def farDist : ℚ → ℚ → ℚ → ℚ → ℚ := fun _ _ _ _ => 68 / 5

/-- Submission without location, rating excellent. -/
def demoReqA : SubmitRequest := ⟨"excellent", none, none⟩

/-- Submission without location, rating ghost with a comment. -/
def demoReqB : SubmitRequest := ⟨"ghost", some "missing", none⟩

theorem reaction_ledger_upsert_unique_witness :
    allAcceptedB farDist "u1" "p1" demoState [demoReqA, demoReqB] = true
    ∧ (atMostOnePerPair (submitFold farDist demoState "u1" "p1" [demoReqA, demoReqB])
      ∧ ∃ row, reactionRowsFor (submitFold farDist demoState "u1" "p1"
            [demoReqA, demoReqB]) "u1" "p1" = [row]
          ∧ row.rating = (([demoReqA, demoReqB]).getLast (by simp)).rating
          ∧ row.comment = (([demoReqA, demoReqB]).getLast (by simp)).comment
          ∧ row.isProximityVerified
              = verdictOf farDist demoState "u1" "p1"
                  (([demoReqA, demoReqB]).getLast (by simp))) :=
  ⟨by decide,
   reaction_ledger_upsert_unique farDist demoState "u1" "p1" [demoReqA, demoReqB]
     (by intro u p; simp [atMostOnePerPair, reactionRowsFor, demoState])
     (by simp) (by decide)⟩

/-- Far-away rating submission: user location latitude 14.7 and longitude
121.05 against the Manila project. -/
def c1Request : SubmitRequest := ⟨"excellent", none, some (147/10, 2421/20)⟩

/-- C1: the claim says a non-admin rating submission beyond the 500 m
radius is rejected with the structured proximity error and leaves the
Reaction Ledger unchanged. The handler does return the structured error,
but it performs the reaction upsert before the proximity check (the
comment at src/server/routes.ts line 550 announces a check before saving
while the upsert of lines 511 to 548 has already run), so the ledger gains
a row: starting from an empty ledger, the rejected submission leaves one
stored reaction. -/
theorem rejected_submission_still_stored :
    (submitReaction farDist demoState "u1" "p1" c1Request).1
        = SubmitResult.rejected (some 13600) 500
    ∧ ((submitReaction farDist demoState "u1" "p1" c1Request).2).reactions.length = 1
    ∧ demoState.reactions.length = 0 := by
  decide

/-- Project whose stored latitude is not numeric. -/
def c3Project : ProjectRow :=
  ⟨"p3", "River Dike", "Cebu", "not-a-number", "123.9", "B Corp", "50",
   none, none, "2023", "R7", none, some "active", 0⟩

/-- State holding the malformed-coordinate project and the non-admin
user. -/
def c3State : DBState := ⟨[demoUser], [], [], [c3Project], 0, 0⟩

/-- C3 counterexample: against the project with a non-numeric stored
latitude, a non-admin submission with a location is answered with the
structured proximity error (whose distance is the NaN of the failed
parse), not accepted as the no-location path would be. -/
theorem malformed_coords_counterexample :
    (submitReaction farDist c3State "u1" "p3" c1Request).1
        = SubmitResult.rejected none 500
    ∧ isOkResult (submitReaction farDist c3State "u1" "p3" c1Request).1 = false := by
  decide

lemma verdictCore_malformed (dist : ℚ → ℚ → ℚ → ℚ → ℚ)
    (projectsT : List ProjectRow) (pid : String) (req : SubmitRequest)
    (c : ℚ × ℚ) (p : ProjectRow)
    (hr : req.userLocation = some c) (hc : (c.1 != 0 && c.2 != 0) = true)
    (hp : projectsT.find? (fun q => q.id == pid) = some p)
    (hbad : jsParseFloat p.latitude = none ∨ jsParseFloat p.longitude = none) :
    verdictCore dist false projectsT pid req
      = (false, some ⟨none, 500, jsParseFloat p.latitude,
          jsParseFloat p.longitude, c.1, c.2⟩) := by
  unfold verdictCore
  rw [hr]
  simp only [hc, if_true]
  rw [hp]
  rcases hbad with hb | hb
  · rw [hb]
    cases h2 : jsParseFloat p.longitude <;> simp [hb, h2]
  · cases h1 : jsParseFloat p.latitude <;> simp [h1, hb]

/-- C3 amended: a rating submission with a truthy location against an
existing project whose stored latitude or longitude fails parseFloat does
not crash the handler, and the reaction row is stored (or overwritten)
with isProximityVerified false; but, for a non-admin submitter, instead of
being handled like the no-location path, the request is answered with the
structured proximity rejection carrying a NaN distance. -/
theorem malformed_coords_store_unverified_but_reject
    (dist : ℚ → ℚ → ℚ → ℚ → ℚ) (st : DBState) (uid pid : String)
    (req : SubmitRequest) (p : ProjectRow)
    (hInv : atMostOnePerPair st)
    (hadmin : isAdminOf st uid = false)
    (hloc : locTruthy req = true)
    (hp : st.projects.find? (fun q => q.id == pid) = some p)
    (hbad : jsParseFloat p.latitude = none ∨ jsParseFloat p.longitude = none) :
    (submitReaction dist st uid pid req).1 = SubmitResult.rejected none 500
    ∧ ∃ row, reactionRowsFor ((submitReaction dist st uid pid req).2) uid pid = [row]
        ∧ row.isProximityVerified = false := by
  obtain ⟨c, hr⟩ : ∃ c, req.userLocation = some c := by
    unfold locTruthy at hloc
    cases hru : req.userLocation with
    | none => rw [hru] at hloc; cases hloc
    | some c => exact ⟨c, rfl⟩
  have hc : (c.1 != 0 && c.2 != 0) = true := by
    unfold locTruthy at hloc
    rw [hr] at hloc
    exact hloc
  have hA1 : isAdminOf (locationStep st uid req) uid = false := by
    rw [isAdminOf_locationStep]; exact hadmin
  have hP1 : (locationStep st uid req).projects = st.projects :=
    locationStep_projects st uid req
  have hvc := verdictCore_malformed dist st.projects pid req c p hr hc hp hbad
  have hv : verdictOf dist st uid pid req = false := by
    rw [verdictOf_eq_core, hadmin, hvc]
  constructor
  · unfold submitReaction
    dsimp only
    rw [hA1, hP1, hvc, hr]
    simp
  · obtain ⟨row, hrow, _, _, hverr⟩ := submit_rows dist st uid pid req hInv
    exact ⟨row, hrow, by rw [hverr, hv]⟩

theorem malformed_coords_store_unverified_but_reject_witness :
    (submitReaction farDist c3State "u1" "p3" c1Request).1
        = SubmitResult.rejected none 500
    ∧ ∃ row, reactionRowsFor ((submitReaction farDist c3State "u1" "p3"
          c1Request).2) "u1" "p3" = [row]
        ∧ row.isProximityVerified = false :=
  malformed_coords_store_unverified_but_reject farDist c3State "u1" "p3"
    c1Request c3Project
    (by intro u p; simp [reactionRowsFor, c3State])
    (by decide) (by decide) (by decide) (Or.inl (by decide))

/-- Row the verify-proximity handler reads: the drizzle query at
src/server/routes.ts lines 653 to 659 selects the user rows ordered by
created_at (ascending, the drizzle default direction) with limit 1, hence
the row with the smallest created_at; on ties the first row in table order
is kept. -/
def earliestUserLocation (st : DBState) (uid : String) : Option UserLocationRow :=
  (st.userLocations.filter (fun r => r.userId == uid)).foldl
    (fun acc r =>
      match acc with
      | none => some r
      | some a => if r.created_at < a.created_at then some r else acc) none

/-- Spec-side notion for claim C4: the most recently written UserLocation
row of the user, later rows winning ties. -/
def mostRecentUserLocation (st : DBState) (uid : String) : Option UserLocationRow :=
  (st.userLocations.filter (fun r => r.userId == uid)).foldl
    (fun acc r =>
      match acc with
      | none => some r
      | some a => if a.created_at ≤ r.created_at then some r else acc) none

/-- Outcome of POST /api/reactions/:reactionId/verify-proximity: the 404
and 400 early returns, or the final payload with the verification flag and
the reported distance (the degree distance times 111, none for NaN). -/
inductive VerifyResult where
  | reactionNotFound
  | projectNotFound
  | locationUnavailable
  | done (verified : Bool) (distanceOut : Option ℚ)
deriving DecidableEq

/-- POST /api/reactions/:reactionId/verify-proximity handler
(src/server/routes.ts lines 621 to 694), parameterized by the square-root
kernel of the simplified Euclidean degree distance at lines 671 to 673:
look up the reaction of the caller, its project, and the location row
selected by earliestUserLocation; verify when the degree distance is below
0.005; update the reaction flag accordingly. -/
def verifyProximity (sqrtFn : ℚ → ℚ) (st : DBState) (uid rid : String) :
    VerifyResult × DBState :=
  match st.reactions.find? (fun r => r.id == rid && r.userId == uid) with
  | none => (VerifyResult.reactionNotFound, st)
  | some rx =>
    match st.projects.find? (fun p => p.id == rx.projectId) with
    | none => (VerifyResult.projectNotFound, st)
    | some p =>
      match earliestUserLocation st uid with
      | none => (VerifyResult.locationUnavailable, st)
      | some loc =>
        let distOpt : Option ℚ :=
          match jsParseFloat p.latitude, jsParseFloat p.longitude with
          | some plat, some plng =>
            some (sqrtFn ((plat - loc.latitude) * (plat - loc.latitude)
              + (plng - loc.longitude) * (plng - loc.longitude)))
          | _, _ => none
        let verified : Bool :=
          match distOpt with
          | some d => decide (d < 1 / 200)
          | none => false
        (VerifyResult.done verified (distOpt.map (fun d => d * 111)),
         { st with reactions := st.reactions.map (fun r =>
             if r.id == rid then { r with isProximityVerified := verified } else r) })

/-- Older stored location of user u1, one degree of latitude away from the
c4 project. -/
def c4LocOld : UserLocationRow := ⟨"l1", "u1", 1, 0, none, 1⟩

/-- Newer stored location of user u1, exactly at the c4 project. -/
def c4LocNew : UserLocationRow := ⟨"l2", "u1", 0, 0, none, 2⟩

/-- Existing reaction of u1 on the c4 project, currently verified. -/
def c4Reaction : ReactionRow := ⟨"r1", "u1", "p4", "excellent", none, true, 0, 0⟩

/-- Project at coordinates (0, 0) for the verify-proximity instance. -/
def c4Project : ProjectRow :=
  ⟨"p4", "Pump Station", "Quezon City", "0", "0", "C Corp", "10",
   none, none, "2022", "NCR", none, some "active", 0⟩

/-- State with two location rows for u1: the older far away, the newer at
the project. -/
def c4State : DBState := ⟨[demoUser], [c4LocOld, c4LocNew], [c4Reaction], [c4Project], 0, 5⟩

/-- Square-root stand-in, exact on the inputs 0 and 1 that occur in the c4
instance. -/
def idSqrt : ℚ → ℚ := fun q => q

/-- C4: the claim (and the code comment at src/server/routes.ts line 653,
which says latest) wants the proximity decision made from the most
recently written UserLocation row. The query orders by created_at
ascending and takes the first row, i.e. the oldest: with an older far-away
row and a newer row at the project, the handler uses the oldest row,
reports the distance computed from it, fails the verification, and
overwrites the previously verified reaction flag to false, while the same
handler run against the newest row alone verifies. -/
theorem verify_proximity_uses_oldest_location :
    earliestUserLocation c4State "u1" = some c4LocOld
    ∧ mostRecentUserLocation c4State "u1" = some c4LocNew
    ∧ c4LocOld.created_at < c4LocNew.created_at
    ∧ (verifyProximity idSqrt c4State "u1" "r1").1 = VerifyResult.done false (some 111)
    ∧ ((verifyProximity idSqrt c4State "u1" "r1").2).reactions
        = [⟨"r1", "u1", "p4", "excellent", none, false, 0, 0⟩]
    ∧ (verifyProximity idSqrt { c4State with userLocations := [c4LocNew] }
        "u1" "r1").1 = VerifyResult.done true (some 0) := by
  decide

/-- Combined state for the project deletion route: the MemStorage projects
map (primary store the route mutates) and the reactions table of the
relational database, which the route never touches. -/
structure StoreState where
  memProjects : List ProjectRow
  dbReactions : List ReactionRow
deriving DecidableEq

/-- MemStorage.deleteProject (use-projects-by-reactions.ts lines 283 to
285): Map.delete, reporting whether the key was present and removing the
entry. -/
def memDeleteProject (t : List ProjectRow) (pid : String) : Bool × List ProjectRow :=
  (t.any (fun p => p.id == pid), t.filter (fun p => !(p.id == pid)))

/-- DELETE /api/projects/:id handler (src/server/routes.ts lines 289 to
300): calls storage.deleteProject and answers 404 when absent; no other
store is touched. -/
def deleteProjectRoute (st : StoreState) (pid : String) : Bool × StoreState :=
  let r := memDeleteProject st.memProjects pid
  (r.1, { st with memProjects := r.2 })

/-- C9: deleting a project removes only that project from the store; the
reactions table is left untouched, every existing Reaction row (including
those referencing the deleted project) surviving unchanged. -/
theorem delete_project_leaves_reactions (st : StoreState) (pid : String) :
    ((deleteProjectRoute st pid).2).dbReactions = st.dbReactions
    ∧ ((deleteProjectRoute st pid).2).memProjects
        = st.memProjects.filter (fun p => !(p.id == pid))
    ∧ ∀ r ∈ st.dbReactions, r ∈ ((deleteProjectRoute st pid).2).dbReactions := by
  exact ⟨rfl, rfl, fun r hr => hr⟩

/-- NaN-propagating addition on doubles modelled as optional rationals. -/
def nanAdd : Option ℚ → Option ℚ → Option ℚ
  | some a, some b => some (a + b)
  | _, _ => none

/-- Pointwise update of the keyed-map model (JavaScript Map.set). -/
def mapUpd (m : String → Nat × Option ℚ) (k : String) (v : Nat × Option ℚ) :
    String → Nat × Option ℚ :=
  fun key => if key = k then v else m key

/-- One project of the contractor grouping of MemStorage.getAnalytics
(use-projects-by-reactions.ts lines 434 to 453): the contractor string is
split on the slash and trimmed; the per-contractor cost is the full parsed
cost when useFullCostForJointVentures is set and otherwise the parsed cost
divided by the number of fragments, empty fragments included in the
divisor; every non-empty fragment then accumulates count and cost, the
map read with a zero default modelling Map.get with the zero fallback. -/
def contractorStep (useFullCost : Bool) (m : String → Nat × Option ℚ)
    (p : ProjectRow) : String → Nat × Option ℚ :=
  let projectCost := jsParseFloat p.cost
  let contractors := splitContractors p.contractor
  let costPerContractor : Option ℚ :=
    if useFullCost then projectCost
    else projectCost.map (fun q => q / (contractors.length : ℚ))
  contractors.foldl
    (fun mm c =>
      if c = "" then mm
      else mapUpd mm c ((mm c).1 + 1, nanAdd (mm c).2 costPerContractor)) m

/-- Contractor map of MemStorage.getAnalytics over the filtered project
list, entries defaulting to zero. -/
def contractorFold (useFullCost : Bool) (ps : List ProjectRow) :
    String → Nat × Option ℚ :=
  ps.foldl (contractorStep useFullCost) (fun _ => (0, some 0))

/-- Per-project cost share of one named contractor with the divisor the
code actually uses: the parsed cost taken in full in joint-venture mode,
otherwise divided by the total fragment count of the contractor string. -/
def jvShare (useFullCost : Bool) (p : ProjectRow) : ℚ :=
  match jsParseFloat p.cost with
  | some q =>
    if useFullCost then q else q / ((splitContractors p.contractor).length : ℚ)
  | none => 0

/-- Distinct non-empty trimmed contractor names of one project, the notion
claim C5 divides by. -/
def specDistinctContractors (p : ProjectRow) : List String :=
  ((splitContractors p.contractor).filter (fun c => c != "")).dedup

/-- Iterated NaN-propagating addition. -/
def nanAddN : Nat → Option ℚ → Option ℚ → Option ℚ
  | 0, _, base => base
  | n + 1, v, base => nanAdd (nanAddN n v base) v

lemma nanAddN_shift (n : Nat) (v base : Option ℚ) :
    nanAddN n v (nanAdd base v) = nanAdd (nanAddN n v base) v := by
  induction n with
  | zero => rfl
  | succ n ih => simp only [nanAddN, ih]

lemma nanAddN_some (n : Nat) (x b : ℚ) :
    nanAddN n (some x) (some b) = some (b + n * x) := by
  induction n with
  | zero => simp [nanAddN]
  | succ n ih =>
    simp only [nanAddN, ih, nanAdd]
    congr 1
    push_cast
    ring

lemma contractorInner_val (cs : List String) (c : String) (hc : c ≠ "")
    (v : Option ℚ) : ∀ mm : String → Nat × Option ℚ,
    ((cs.foldl (fun mm2 c2 =>
        if c2 = "" then mm2
        else mapUpd mm2 c2 ((mm2 c2).1 + 1, nanAdd (mm2 c2).2 v)) mm) c).2
      = nanAddN (cs.count c) v (mm c).2 := by
  induction cs with
  | nil => intro mm; rfl
  | cons c2 t ih =>
    intro mm
    by_cases h2 : c2 = ""
    · simp only [List.foldl_cons, if_pos h2]
      rw [ih mm]
      have hne : ¬ c2 = c := fun h => hc (h2 ▸ h.symm)
      have hcount : List.count c (c2 :: t) = List.count c t := by
        simp [List.count_cons, hne, Ne.symm hne]
      rw [hcount]
    · simp only [List.foldl_cons, if_neg h2]
      rw [ih]
      by_cases hcc : c = c2
      · subst hcc
        have hup : (mapUpd mm c ((mm c).1 + 1, nanAdd (mm c).2 v)) c
            = ((mm c).1 + 1, nanAdd (mm c).2 v) := by
          simp [mapUpd]
        rw [hup]
        have hcount : List.count c (c :: t) = List.count c t + 1 := by
          simp [List.count_cons]
        rw [hcount, nanAddN_shift]
        rfl
      · have hup : (mapUpd mm c2 ((mm c2).1 + 1, nanAdd (mm c2).2 v)) c = mm c := by
          simp [mapUpd, hcc]
        rw [hup]
        have hcount : List.count c (c2 :: t) = List.count c t := by
          simp [List.count_cons, hcc, Ne.symm hcc]
        rw [hcount]

lemma contractorStep_val (useFullCost : Bool) (m : String → Nat × Option ℚ)
    (p : ProjectRow) (c : String) (hc : c ≠ "") (q : ℚ)
    (hq : jsParseFloat p.cost = some q) :
    ((contractorStep useFullCost m p) c).2
      = nanAddN ((splitContractors p.contractor).count c)
          (some (jvShare useFullCost p)) ((m c).2) := by
  unfold contractorStep
  have hv : (if useFullCost then jsParseFloat p.cost
      else (jsParseFloat p.cost).map
        (fun q2 => q2 / ((splitContractors p.contractor).length : ℚ)))
      = some (jvShare useFullCost p) := by
    unfold jvShare
    rw [hq]
    cases useFullCost <;> simp
  rw [hv]
  exact contractorInner_val _ c hc _ m

lemma contractorFold_general (useFullCost : Bool) (c : String) (hc : c ≠ "")
    (ps : List ProjectRow) :
    ∀ (m : String → Nat × Option ℚ) (b : ℚ), (m c).2 = some b →
    (∀ p ∈ ps, (jsParseFloat p.cost).isSome) →
    ((ps.foldl (contractorStep useFullCost) m) c).2
      = some (b + (ps.map (fun p =>
          (((splitContractors p.contractor).count c : ℚ))
            * jvShare useFullCost p)).sum) := by
  induction ps with
  | nil =>
    intro m b hb _
    simp [hb]
  | cons p t ih =>
    intro m b hb hparse
    obtain ⟨q, hq⟩ : ∃ q, jsParseFloat p.cost = some q := by
      have h1 := hparse p (by simp)
      cases hpq : jsParseFloat p.cost with
      | none => rw [hpq] at h1; simp at h1
      | some q => exact ⟨q, rfl⟩
    have hstep : ((contractorStep useFullCost m p) c).2
        = some (b + ((splitContractors p.contractor).count c : ℚ)
            * jvShare useFullCost p) := by
      rw [contractorStep_val useFullCost m p c hc q hq, hb, nanAddN_some]
    have hparse2 : ∀ p2 ∈ t, (jsParseFloat p2.cost).isSome :=
      fun p2 hp2 => hparse p2 (by simp [hp2])
    simp only [List.foldl_cons, List.map_cons, List.sum_cons]
    rw [ih (contractorStep useFullCost m p)
        (b + ((splitContractors p.contractor).count c : ℚ) * jvShare useFullCost p)
        hstep hparse2]
    congr 1
    ring

/-- C5 amended: in the getAnalytics contractor grouping, contractor names
are trimmed and empty fragments are dropped from the output, but the
default division is by the total number of slash-separated fragments of
the contractor string, empty fragments and repeats included: a contractor
named k times in a project receives k times cost divided by the fragment
count (with useFullCostForJointVentures set, k times the full cost). For a
contractor string whose fragments are all non-empty and distinct, such as
A Corp / B Corp with cost 100, this is the cost split of the claim: 50
each by default and 100 each with the flag. -/
theorem contractor_cost_split (useFullCost : Bool) (ps : List ProjectRow)
    (c : String) (hc : c ≠ "")
    (hparse : ∀ p ∈ ps, (jsParseFloat p.cost).isSome) :
    (contractorFold useFullCost ps c).2
      = some ((ps.map (fun p =>
          (((splitContractors p.contractor).count c : ℚ))
            * jvShare useFullCost p)).sum) := by
  have h := contractorFold_general useFullCost c hc ps (fun _ => (0, some 0)) 0
    rfl hparse
  unfold contractorFold
  rw [h]
  simp

/-- Joint-venture project with a trailing slash fragment: the fragment
list is [A Corp, empty], so the divisor is 2 although only one contractor
is named. -/
def c5Trailing : ProjectRow :=
  ⟨"p5", "Levee", "Iloilo", "10.7", "122.5", "A Corp / ", "100",
   none, none, "2021", "R6", none, some "active", 0⟩

/-- C5 counterexample: for the contractor string A Corp with a trailing
slash and cost 100 there is exactly one distinct named contractor, so the
claim assigns it 100 / 1 = 100; the code divides by the fragment count 2,
including the empty fragment, and credits 50. -/
theorem contractor_cost_split_counterexample :
    specDistinctContractors c5Trailing = ["A Corp"]
    ∧ jsParseFloat c5Trailing.cost = some 100
    ∧ (contractorFold false [c5Trailing] "A Corp").2 = some 50
    ∧ ¬ ((50 : ℚ) = 100 / ((specDistinctContractors c5Trailing).length : ℚ)) := by
  decide

/-- The two-contractor joint venture of the spec example. -/
def c5JointVenture : ProjectRow :=
  ⟨"p6", "Seawall", "Davao", "7.1", "125.6", "A Corp / B Corp", "100",
   none, none, "2020", "R11", none, some "active", 0⟩

theorem contractor_cost_split_witness :
    ((contractorFold false [c5JointVenture] "A Corp").2 = some 50
      ∧ (contractorFold false [c5JointVenture] "B Corp").2 = some 50
      ∧ (contractorFold true [c5JointVenture] "A Corp").2 = some 100)
    ∧ (contractorFold false [c5JointVenture] "A Corp").2
        = some (([c5JointVenture].map (fun p =>
            (((splitContractors p.contractor).count "A Corp" : ℚ))
              * jvShare false p)).sum)
    ∧ (contractorFold true [c5JointVenture] "B Corp").2
        = some (([c5JointVenture].map (fun p =>
            (((splitContractors p.contractor).count "B Corp" : ℚ))
              * jvShare true p)).sum) :=
  ⟨by decide,
   contractor_cost_split false [c5JointVenture] "A Corp" (by decide) (by decide),
   contractor_cost_split true [c5JointVenture] "B Corp" (by decide) (by decide)⟩

/-- Search predicate of MemStorage.getProjects
(use-projects-by-reactions.ts lines 154 to 160): keep the project when the
lowercased search string occurs in projectname, location, contractor,
region, or, when present, other_details. -/
def listingSearchKeeps (q : String) (p : ProjectRow) : Bool :=
  jsIncludesCI p.projectname q || jsIncludesCI p.location q
    || jsIncludesCI p.contractor q || jsIncludesCI p.region q
    || (match p.other_details with
        | some d => jsIncludesCI d q
        | none => false)

/-- Search conjunct of the MemStorage.getAnalytics filter
(use-projects-by-reactions.ts lines 298 to 305): the project is dropped
when none of projectname, location and contractor matches. -/
def analyticsSearchKeeps (q : String) (p : ProjectRow) : Bool :=
  !(!(jsIncludesCI p.projectname q) && !(jsIncludesCI p.location q)
      && !(jsIncludesCI p.contractor q))

/-- Search predicate in the words of claim C7: case-insensitive substring
match against at least one of name, location, contractor, region, or
notes. -/
def specSearchMatch (q : String) (p : ProjectRow) : Bool :=
  jsIncludesCI p.projectname q || jsIncludesCI p.location q
    || jsIncludesCI p.contractor q || jsIncludesCI p.region q
    || (match p.other_details with
        | some d => jsIncludesCI d q
        | none => false)

/-- Three-field match of the amended claim C7 for the analytics path. -/
def threeFieldMatch (q : String) (p : ProjectRow) : Bool :=
  jsIncludesCI p.projectname q || jsIncludesCI p.location q
    || jsIncludesCI p.contractor q

/-- Project matched only by its region field. -/
def c7Project : ProjectRow :=
  ⟨"p7", "Drainage Works", "Pasig", "14.57", "121.08", "D Corp", "5",
   none, none, "2020", "Metro Manila", some "ongoing works", some "active", 0⟩

/-- C7 counterexample: the search metro matches the region of the project
(so the claim says both paths keep it, and the listing path does), but the
analytics filter drops it because it only consults projectname, location
and contractor. -/
theorem search_filter_counterexample :
    specSearchMatch "metro" c7Project = true
    ∧ listingSearchKeeps "metro" c7Project = true
    ∧ analyticsSearchKeeps "metro" c7Project = false := by
  decide

/-- C7 amended: for a non-empty search string, a project passes the
listing-path search filter exactly when the search occurs
case-insensitively in one of name, location, contractor, region or notes;
on the analytics path the filter instead keeps the project exactly when
one of name, location or contractor matches, region and notes being
ignored there. -/
theorem search_filter_fields (q : String) (p : ProjectRow) (hq : q ≠ "") :
    (listingSearchKeeps q p = true ↔ specSearchMatch q p = true)
    ∧ (analyticsSearchKeeps q p = true ↔ threeFieldMatch q p = true) := by
  refine ⟨Iff.rfl, ?_⟩
  have h : analyticsSearchKeeps q p = threeFieldMatch q p := by
    unfold analyticsSearchKeeps threeFieldMatch
    cases jsIncludesCI p.projectname q <;> cases jsIncludesCI p.location q
      <;> cases jsIncludesCI p.contractor q <;> rfl
  rw [h]

theorem search_filter_fields_witness :
    ("metro" ≠ "")
    ∧ ((listingSearchKeeps "metro" c7Project = true
          ↔ specSearchMatch "metro" c7Project = true)
      ∧ (analyticsSearchKeeps "metro" c7Project = true
          ↔ threeFieldMatch "metro" c7Project = true)) :=
  ⟨by decide, search_filter_fields "metro" c7Project (by decide)⟩

/-- Ordinal rating mapping of the by-reactions SQL CASE
(use-projects.ts lines 245 to 251): excellent 4, standard 3, sub-standard
2, ghost 1, anything else 0. -/
def ratingScore (r : String) : ℚ :=
  if r = "excellent" then 4
  else if r = "standard" then 3
  else if r = "sub-standard" then 2
  else if r = "ghost" then 1
  else 0

/-- Ratings joined to one project (the inner join on projectId). -/
def projectRatings (rs : List ReactionRow) (pid : String) : List String :=
  (rs.filter (fun r => r.projectId == pid)).map (fun r => r.rating)

/-- SQL avg with coalesce 0: mean of the list, 0 when empty. -/
def listAvg (l : List ℚ) : ℚ :=
  if l.length = 0 then 0 else l.sum / (l.length : ℚ)

/-- Postgres variance aggregate: the sample variance, the sum of squared
deviations from the mean divided by n - 1. -/
def varSamp (l : List ℚ) : ℚ :=
  (l.map (fun x => (x - listAvg l) * (x - listAvg l))).sum
    / ((l.length : ℚ) - 1)

/-- Controversy contribution of one project (the SQL CASE at
use-projects.ts lines 261 to 273): the sample variance of the mapped
rating values when the project has at least two reactions, else 0. -/
def projectControversy (ratings : List String) : ℚ :=
  if 2 ≤ ratings.length then varSamp (ratings.map ratingScore) else 0

/-- Per-project average score of the by-reactions query. -/
def avgScoreOf (rs : List ReactionRow) (pid : String) : ℚ :=
  listAvg ((projectRatings rs pid).map ratingScore)

/-- Per-project ghost count: sum of the ghost indicator. -/
def ghostCountOf (rs : List ReactionRow) (pid : String) : Nat :=
  (rs.filter (fun r => r.projectId == pid && r.rating == "ghost")).length

/-- Per-project latest reaction epoch, with the JavaScript zero fallback
applied when accumulating. -/
def latestRatingOf (rs : List ReactionRow) (pid : String) : Nat :=
  (rs.filter (fun r => r.projectId == pid)).foldl
    (fun acc r => max acc r.created_at) 0

/-- Rows of the by-reactions query (use-projects.ts lines 231 to 279): one
row per project, restricted by the WHERE clause to a non-empty contractor
string and by the inner join to projects with at least one reaction. -/
def joinedRows (ps : List ProjectRow) (rs : List ReactionRow) : List ProjectRow :=
  ps.filter (fun p => p.contractor != "" && !(projectRatings rs p.id).isEmpty)

/-- Contractor group of the in-memory grouping at use-projects.ts lines
282 to 321, keyed on the full contractor string. -/
structure ContractorGroup where
  contractor : String
  projects : List ProjectRow
  bestScore : ℚ
  totalRatings : Nat
  ghostCount : Nat
  latestRating : Nat
  controversyScore : ℚ
deriving DecidableEq

/-- Fold building one contractor group from its rows: projects collected
in row order, bestScore and latestRating as Math.max folds from the zero
initialization, the other aggregates as running sums. -/
def groupOfRows (name : String) (rs : List ReactionRow)
    (rows : List ProjectRow) : ContractorGroup :=
  { contractor := name
    projects := rows
    bestScore := rows.foldl (fun acc p => max acc (avgScoreOf rs p.id)) 0
    totalRatings := rows.foldl (fun acc p => acc + (projectRatings rs p.id).length) 0
    ghostCount := rows.foldl (fun acc p => acc + ghostCountOf rs p.id) 0
    latestRating := rows.foldl (fun acc p => max acc (latestRatingOf rs p.id)) 0
    controversyScore := rows.foldl
      (fun acc p => acc + projectControversy (projectRatings rs p.id)) 0 }

/-- Rows of one contractor key: the grouping dispatches each query row to
the group of its full contractor string, so the group of a key collects
exactly the rows whose contractor equals that key, in row order. -/
def groupRows (ps : List ProjectRow) (rs : List ReactionRow)
    (name : String) : List ProjectRow :=
  (joinedRows ps rs).filter (fun p => p.contractor == name)

/-- Contractor group of one key of the by-reactions response. -/
def byReactionsGroup (ps : List ProjectRow) (rs : List ReactionRow)
    (name : String) : ContractorGroup :=
  groupOfRows name rs (groupRows ps rs name)

/-- Keys of the by-reactions grouping: the distinct full contractor
strings of the query rows. -/
def byReactionsGroupNames (ps : List ProjectRow) (rs : List ReactionRow) :
    List String :=
  ((joinedRows ps rs).map (fun p => p.contractor)).dedup

lemma foldl_add_eq_sum {α : Type} (f : α → ℚ) (l : List α) :
    ∀ b0 : ℚ, l.foldl (fun acc a => acc + f a) b0 = b0 + (l.map f).sum := by
  induction l with
  | nil => intro b0; simp
  | cons a t ih =>
    intro b0
    simp only [List.foldl_cons, List.map_cons, List.sum_cons, ih]
    ring

lemma sum_filter_filter_eq {α : Type} (f : α → ℚ) (J M : α → Bool)
    (h0 : ∀ a, M a = true → J a = false → f a = 0) (l : List α) :
    (((l.filter J).filter M).map f).sum = ((l.filter M).map f).sum := by
  induction l with
  | nil => rfl
  | cons a t ih =>
    simp only [List.filter_filter] at ih ⊢
    simp only [List.filter_cons]
    cases hM : M a with
    | true =>
      cases hJ : J a with
      | true => simp [hM, hJ, ih]
      | false => simp [hM, hJ, ih, h0 a hM hJ]
    | false =>
      cases hJ : J a with
      | true => simp [hM, hJ, ih]
      | false => simp [hM, hJ, ih]

/-- C6: the controversyScore of a contractor group equals the sum, over
all projects whose contractor string equals the group key, of the sample
variance of the project ratings under the mapping excellent 4, standard 3,
sub-standard 2, ghost 1, a project with fewer than two ratings (including
projects the inner join drops entirely) contributing exactly 0. -/
theorem contractor_controversy_score (ps : List ProjectRow)
    (rs : List ReactionRow) (name : String) (hname : name ≠ "") :
    (byReactionsGroup ps rs name).controversyScore
      = ((ps.filter (fun p => p.contractor == name)).map
          (fun p =>
            if 2 ≤ (projectRatings rs p.id).length then
              varSamp ((projectRatings rs p.id).map ratingScore)
            else 0)).sum := by
  have hmain : (byReactionsGroup ps rs name).controversyScore
      = ((ps.filter (fun p => p.contractor == name)).map
          (fun p => projectControversy (projectRatings rs p.id))).sum := by
    unfold byReactionsGroup groupOfRows groupRows joinedRows
    dsimp only
    rw [foldl_add_eq_sum]
    rw [sum_filter_filter_eq]
    · simp
    · intro p hM hJ
      have hpc : p.contractor = name := by simpa using hM
      have hcne : (p.contractor != "") = true := by
        rw [hpc]
        simpa using hname
      have hempty : (projectRatings rs p.id).isEmpty = true := by
        rw [hcne] at hJ
        simpa using hJ
      have hnil : projectRatings rs p.id = [] := by
        simpa [List.isEmpty_iff] using hempty
      unfold projectControversy
      rw [hnil]
      simp
  rw [hmain]
  simp only [projectControversy]

/-- First project of contractor C Corp, carrying two ratings. -/
def c6ProjectA : ProjectRow :=
  ⟨"a", "Dredging A", "Marikina", "14.6", "121.1", "C Corp", "30",
   none, none, "2024", "NCR", none, some "active", 0⟩

/-- Second project of contractor C Corp, carrying one rating. -/
def c6ProjectB : ProjectRow :=
  ⟨"b", "Dredging B", "Marikina", "14.6", "121.1", "C Corp", "40",
   none, none, "2024", "NCR", none, some "active", 0⟩

/-- Reactions for the controversy instance: excellent and ghost on the
first project, standard alone on the second. -/
def c6Reactions : List ReactionRow :=
  [⟨"r1", "u1", "a", "excellent", none, false, 1, 1⟩,
   ⟨"r2", "u2", "a", "ghost", none, false, 2, 2⟩,
   ⟨"r3", "u1", "b", "standard", none, false, 3, 3⟩]

theorem contractor_controversy_score_witness :
    ((byReactionsGroup [c6ProjectA, c6ProjectB] c6Reactions "C Corp").controversyScore
        = 9 / 2)
    ∧ (byReactionsGroup [c6ProjectA, c6ProjectB] c6Reactions "C Corp").controversyScore
        = (([c6ProjectA, c6ProjectB].filter (fun p => p.contractor == "C Corp")).map
            (fun p =>
              if 2 ≤ (projectRatings c6Reactions p.id).length then
                varSamp ((projectRatings c6Reactions p.id).map ratingScore)
              else 0)).sum :=
  ⟨by decide,
   contractor_controversy_score [c6ProjectA, c6ProjectB] c6Reactions "C Corp"
     (by decide)⟩

lemma groupRows_erase_other (ps : List ProjectRow) (rs : List ReactionRow)
    (p : ProjectRow) (n : String) (hn : ¬ p.contractor = n) :
    groupRows (ps.filter (fun q => !(q == p))) rs n = groupRows ps rs n := by
  unfold groupRows joinedRows
  simp only [List.filter_filter]
  induction ps with
  | nil => rfl
  | cons q t ih =>
    simp only [List.filter_cons]
    by_cases hq : q = p
    · subst hq
      have hM : (q.contractor == n) = false := by simpa using hn
      simp [hM, ih]
    · have hqp : (q == p) = false := by simpa using hq
      simp only [hqp, Bool.not_false, Bool.and_true]
      rw [ih]

/-- C10: the by-reactions rollup groups each query row under its full,
unsplit contractor string: a joint-venture project appears in the group of
the combined name (which is one of the group keys), every member of any
group carries exactly that group key as its contractor, and removing the
joint-venture project from the project set leaves the group of any other
name, such as one of the individual venture partners, entirely unchanged,
so none of its ratings, ghost counts or scores flow there. -/
theorem joint_venture_contractor_grouping (ps : List ProjectRow)
    (rs : List ReactionRow) (p : ProjectRow) (n : String)
    (hp : p ∈ ps) (hc : p.contractor ≠ "")
    (hr : projectRatings rs p.id ≠ []) (hn : n ≠ p.contractor) :
    p ∈ (byReactionsGroup ps rs p.contractor).projects
    ∧ p.contractor ∈ byReactionsGroupNames ps rs
    ∧ (∀ q ∈ (byReactionsGroup ps rs n).projects, q.contractor = n)
    ∧ byReactionsGroup ps rs n
        = byReactionsGroup (ps.filter (fun q => !(q == p))) rs n := by
  have hjoin : p ∈ joinedRows ps rs := by
    unfold joinedRows
    rw [List.mem_filter]
    refine ⟨hp, ?_⟩
    simp [hc, hr]
  refine ⟨?_, ?_, ?_, ?_⟩
  · unfold byReactionsGroup groupOfRows groupRows
    dsimp only
    rw [List.mem_filter]
    exact ⟨hjoin, by simp⟩
  · unfold byReactionsGroupNames
    rw [List.mem_dedup]
    exact List.mem_map.mpr ⟨p, hjoin, rfl⟩
  · intro q hq
    unfold byReactionsGroup groupOfRows groupRows at hq
    dsimp only at hq
    rw [List.mem_filter] at hq
    simpa using hq.2
  · exact (congrArg (groupOfRows n rs)
      (groupRows_erase_other ps rs p n (fun h => hn h.symm))).symm

/-- Joint-venture project whose contractor field is the combined string. -/
def c10Project : ProjectRow :=
  ⟨"j", "Joint Levee", "Bulacan", "14.8", "120.9", "A / B", "70",
   none, none, "2024", "R3", none, some "active", 0⟩

/-- Single ghost reaction on the joint-venture project. -/
def c10Reactions : List ReactionRow :=
  [⟨"r9", "u1", "j", "ghost", none, false, 4, 4⟩]

theorem joint_venture_contractor_grouping_witness :
    byReactionsGroupNames [c10Project] c10Reactions = ["A / B"]
    ∧ (c10Project ∈ (byReactionsGroup [c10Project] c10Reactions
          c10Project.contractor).projects
      ∧ c10Project.contractor ∈ byReactionsGroupNames [c10Project] c10Reactions
      ∧ (∀ q ∈ (byReactionsGroup [c10Project] c10Reactions "A").projects,
          q.contractor = "A")
      ∧ byReactionsGroup [c10Project] c10Reactions "A"
          = byReactionsGroup ([c10Project].filter
              (fun q => !(q == c10Project))) c10Reactions "A") :=
  ⟨by decide,
   joint_venture_contractor_grouping [c10Project] c10Reactions c10Project "A"
     (by simp) (by decide) (by decide) (by decide)⟩

/-- Model of Math.atan2 on finite doubles, by quadrant. -/
noncomputable def jsAtan2 (y x : ℝ) : ℝ :=
  if 0 < x then Real.arctan (y / x)
  else if x < 0 then
    (if 0 ≤ y then Real.arctan (y / x) + Real.pi
     else Real.arctan (y / x) - Real.pi)
  else if 0 < y then Real.pi / 2
  else if y < 0 then -(Real.pi / 2)
  else 0

/-- Haversine intermediate a of src/server/routes.ts lines 483 to 488:
sin(dLat/2)^2 plus cos(projectLat)*cos(userLat)*sin(dLon/2)^2, angles in
radians. -/
noncomputable def havA (plat plng ulat ulng : ℝ) : ℝ :=
  Real.sin ((ulat - plat) * (Real.pi / 180) / 2)
      * Real.sin ((ulat - plat) * (Real.pi / 180) / 2)
    + Real.cos (plat * (Real.pi / 180)) * Real.cos (ulat * (Real.pi / 180))
      * Real.sin ((ulng - plng) * (Real.pi / 180) / 2)
      * Real.sin ((ulng - plng) * (Real.pi / 180) / 2)

/-- Real translation of the Haversine distance of src/server/routes.ts
lines 479 to 490: 6371 km times 2*atan2(sqrt a, sqrt(1-a)). -/
noncomputable def haversineKm (plat plng ulat ulng : ℝ) : ℝ :=
  6371 * (2 * jsAtan2 (Real.sqrt (havA plat plng ulat ulng))
    (Real.sqrt (1 - havA plat plng ulat ulng)))

lemma havA_symm (a b c d : ℝ) : havA a b c d = havA c d a b := by
  have hsin : ∀ x y : ℝ,
      Real.sin ((x - y) * (Real.pi / 180) / 2)
          * Real.sin ((x - y) * (Real.pi / 180) / 2)
        = Real.sin ((y - x) * (Real.pi / 180) / 2)
          * Real.sin ((y - x) * (Real.pi / 180) / 2) := by
    intro x y
    have h : (x - y) * (Real.pi / 180) / 2 = -((y - x) * (Real.pi / 180) / 2) := by
      ring
    rw [h, Real.sin_neg]
    ring
  unfold havA
  linear_combination hsin c a
    + (Real.cos (a * (Real.pi / 180)) * Real.cos (c * (Real.pi / 180))) * hsin d b

/-- C8: the great-circle distance computation is symmetric in its two
coordinate pairs, and returns 0 when the two points are identical. -/
theorem haversine_symm_and_zero_on_diagonal :
    (∀ plat plng ulat ulng : ℝ,
      haversineKm plat plng ulat ulng = haversineKm ulat ulng plat plng)
    ∧ ∀ lat lng : ℝ, haversineKm lat lng lat lng = 0 := by
  constructor
  · intro a b c d
    unfold haversineKm
    rw [havA_symm]
  · intro lat lng
    have hA : havA lat lng lat lng = 0 := by
      unfold havA
      simp
    unfold haversineKm
    rw [hA]
    have h1 : Real.sqrt 0 = 0 := Real.sqrt_zero
    have h2 : Real.sqrt (1 - 0) = 1 := by
      rw [sub_zero, Real.sqrt_one]
    rw [h1, h2]
    have h3 : jsAtan2 0 1 = 0 := by
      unfold jsAtan2
      rw [if_pos one_pos]
      simp [Real.arctan_zero]
    rw [h3]
    ring
